import Mathlib

/-!
Verification of the devsandbox repository against its specification.

Each section shallowly embeds one component of the Go source:

* `internal/proxy/filter_types.go` — filter rules, validation, pattern-type
  detection, and the proxy server's port-binding loop;
* the request logger and its rotating compressed log files;
* `internal/sandbox/config.go` — sandbox naming (sanitized basename plus
  a sha256-derived suffix);
* the sandbox session lock (`flock`-based shared/exclusive probing);
* the shell-command builder and the pasta network-isolation driver.

Machine integers are modelled as `Nat` with explicit `% 2^32` where the
source relies on 32-bit overflow (the sha256 compression function).
Filesystem and socket effects are modelled by explicit state passing.
-/

/-! ## Filter rules (`internal/proxy/filter_types.go`) -/

/-- Go constant `FilterActionAllow`. Go's `FilterAction` is a string type, so
actions are embedded as `String`. -/
def FilterActionAllow : String := "allow"

/-- Go constant `FilterActionBlock`. -/
def FilterActionBlock : String := "block"

/-- Go constant `FilterActionAsk`. -/
def FilterActionAsk : String := "ask"

/-- Go constant `FilterScopeHost`. -/
def FilterScopeHost : String := "host"

/-- Go constant `FilterScopePath`. -/
def FilterScopePath : String := "path"

/-- Go constant `FilterScopeURL`. -/
def FilterScopeURL : String := "url"

/-- Go constant `PatternTypeExact`. -/
def PatternTypeExact : String := "exact"

/-- Go constant `PatternTypeGlob`. -/
def PatternTypeGlob : String := "glob"

/-- Go constant `PatternTypeRegex`. -/
def PatternTypeRegex : String := "regex"

/-- Embedding of struct `FilterRule` (filter_types.go). All four enum-like
fields are Go string types, hence `String` here. The Go field `Type` is
rendered `rtype`. -/
structure FilterRule where
  pattern : String
  action : String
  scope : String
  rtype : String
  reason : String
deriving DecidableEq, Repr

/-- The single-character strings `"^" "$" "|" "(" ")" "[" "]" "{" "}" "+" "\\"`
that `DetectPatternType` probes with `strings.Contains`, as characters
(each probe string has exactly one character). -/
def regexIndicatorChars : List Char :=
  ['^', '$', '|', '(', ')', '[', ']', '\x7b', '\x7d', '+', '\\']

/-- Embedding of Go `strings.Contains(s, string(c))` for a one-character
needle: membership of the character in the string. -/
def containsChar (s : String) (c : Char) : Bool :=
  s.data.contains c

/-- Embedding of `FilterRule.DetectPatternType` (filter_types.go:182-197):
an explicitly set `Type` is returned unchanged; otherwise the pattern is
scanned for regex indicator characters, defaulting to glob. -/
def detectPatternType (r : FilterRule) : String :=
  if r.rtype ≠ "" then r.rtype
  else if regexIndicatorChars.any (fun c => containsChar r.pattern c) then PatternTypeRegex
  else PatternTypeGlob

/-- Embedding of `FilterRule.Validate` (filter_types.go:139-179).
`regexCompiles` abstracts Go's `regexp.Compile` succeeding on a pattern
(the regex engine is Go standard library, not repository code).
Returns `some errorMessage` where the Go code returns a non-nil error and
`none` where it returns nil, following the source's check order exactly. -/
def validateRule (regexCompiles : String → Bool) (r : FilterRule) : Option String :=
  if r.pattern = "" then some "pattern is required"
  else if ¬ (r.action = FilterActionAllow ∨ r.action = FilterActionBlock ∨
              r.action = FilterActionAsk) then
    if r.action = "" then some "action is required"
    else some ("invalid action: " ++ r.action)
  else if ¬ (r.scope = FilterScopeHost ∨ r.scope = FilterScopePath ∨
              r.scope = FilterScopeURL ∨ r.scope = "") then
    some ("invalid scope: " ++ r.scope)
  else if ¬ (r.rtype = PatternTypeExact ∨ r.rtype = PatternTypeGlob ∨
              r.rtype = PatternTypeRegex ∨ r.rtype = "") then
    some ("invalid type: " ++ r.rtype)
  else if detectPatternType r = PatternTypeRegex ∧ ¬ regexCompiles r.pattern then
    some "invalid regex pattern"
  else none

/-- C7: for a rule with no explicit type, `DetectPatternType` returns regex
exactly when the pattern contains one of the regex indicator characters,
and glob otherwise; an explicit type is returned unchanged. -/
theorem detectPatternType_regex_iff_indicator (r : FilterRule) :
    (r.rtype ≠ "" → detectPatternType r = r.rtype) ∧
    (r.rtype = "" →
      ((detectPatternType r = PatternTypeRegex ↔
        ∃ c ∈ r.pattern.data, c ∈ regexIndicatorChars) ∧
       ((¬ ∃ c ∈ r.pattern.data, c ∈ regexIndicatorChars) →
        detectPatternType r = PatternTypeGlob))) := by
  refine ⟨fun h => by simp [detectPatternType, h], fun h => ?_⟩
  have hiff : (regexIndicatorChars.any (fun c => containsChar r.pattern c) = true) ↔
      ∃ c ∈ r.pattern.data, c ∈ regexIndicatorChars := by
    simp only [List.any_eq_true, containsChar, List.elem_eq_mem, decide_eq_true_eq]
    exact ⟨fun ⟨c, hc, hm⟩ => ⟨c, hm, hc⟩, fun ⟨c, hc, hm⟩ => ⟨c, hm, hc⟩⟩
  constructor
  · constructor
    · intro hreg
      rw [← hiff]
      by_contra hfalse
      simp only [Bool.not_eq_true] at hfalse
      simp [detectPatternType, h, hfalse, PatternTypeGlob, PatternTypeRegex] at hreg
    · intro hex
      rw [← hiff] at hex
      simp [detectPatternType, h, hex]
  · intro hnone
    rw [← hiff] at hnone
    simp only [Bool.not_eq_true] at hnone
    simp [detectPatternType, h, hnone]

/-- Witness for C7 at a concrete rule: pattern `"api|web"` with no explicit
type is detected as regex. -/
theorem detectPatternType_regex_iff_indicator_witness :
    detectPatternType ⟨"api|web", "allow", "", "", ""⟩ = PatternTypeRegex :=
  ((detectPatternType_regex_iff_indicator ⟨"api|web", "allow", "", "", ""⟩).2 rfl).1.mpr
    ⟨'|', by decide, by decide⟩

/-- C3 counterexample: the rule `{pattern := "a", action := "allow",
scope := "weird"}` has a non-empty pattern, a set action, and a non-regex
pattern type, yet `Validate` rejects it (invalid scope), refuting the claim
that those three conditions alone guarantee validation success. -/
theorem validateRule_not_iff_counterexample :
    validateRule (fun _ => true) ⟨"a", "allow", "weird", "", ""⟩ ≠ none ∧
    (⟨"a", "allow", "weird", "", ""⟩ : FilterRule).pattern ≠ "" ∧
    (⟨"a", "allow", "weird", "", ""⟩ : FilterRule).action ≠ "" ∧
    detectPatternType ⟨"a", "allow", "weird", "", ""⟩ ≠ PatternTypeRegex := by
  decide

/-- C3 amended: `Validate` returns no error iff the pattern is non-empty,
the action is one of allow/block/ask, the scope is one of host/path/url or
empty, the type is one of exact/glob/regex or empty, and, when the detected
pattern type is regex, the pattern compiles. -/
theorem validateRule_ok_iff (regexCompiles : String → Bool) (r : FilterRule) :
    validateRule regexCompiles r = none ↔
      (r.pattern ≠ "" ∧
       (r.action = FilterActionAllow ∨ r.action = FilterActionBlock ∨
         r.action = FilterActionAsk) ∧
       (r.scope = FilterScopeHost ∨ r.scope = FilterScopePath ∨
         r.scope = FilterScopeURL ∨ r.scope = "") ∧
       (r.rtype = PatternTypeExact ∨ r.rtype = PatternTypeGlob ∨
         r.rtype = PatternTypeRegex ∨ r.rtype = "") ∧
       (detectPatternType r = PatternTypeRegex → regexCompiles r.pattern = true)) := by
  unfold validateRule
  split_ifs with h1 h2 h3 h4 h5 h6 <;> simp_all

/-! ## Shell command construction (sandbox package, shell builders) -/

/-- Go constant `ShellFish` (Go's `Shell` is a string type). -/
def ShellFish : String := "fish"

/-- Go constant `ShellBash`. -/
def ShellBash : String := "bash"

/-- Go constant `ShellZsh`. -/
def ShellZsh : String := "zsh"

/-- The fields of `sandbox.Config` consumed by `BuildShellCommand`. -/
structure ShellConfig where
  shell : String
  shellPath : String
  projectName : String
deriving DecidableEq, Repr

/-- The fish mise-activation snippet from `buildFishCommand`. -/
def miseActivationFish : String :=
  "if command -q mise; mise activate fish | source; end"

/-- The bash mise-activation snippet from `buildBashCommand`. -/
def miseActivationBash : String :=
  "if command -v mise &>/dev/null; then eval \"$(mise activate bash)\"; fi"

/-- The zsh mise-activation snippet from `buildZshCommand`. -/
def miseActivationZsh : String :=
  "if command -v mise &>/dev/null; then eval \"$(mise activate zsh)\"; fi"

/-- Embedding of `buildFishCommand`: interactive greeting when no args,
otherwise mise activation followed by the space-joined command. -/
def buildFishCommand (cfg : ShellConfig) (args : List String) : List String :=
  if args = [] then
    let greeting := "set -gx fish_greeting \"🔒 Sandbox: " ++ cfg.projectName ++
      " | .env blocked | No SSH/git push\""
    [cfg.shellPath, "-c", miseActivationFish ++ "; " ++ greeting ++ "; exec fish"]
  else
    [cfg.shellPath, "-c", miseActivationFish ++ "; " ++ String.intercalate " " args]

/-- Embedding of `buildBashCommand`. -/
def buildBashCommand (cfg : ShellConfig) (args : List String) : List String :=
  if args = [] then
    let ps1 := "PS1=\"🔒 [" ++ cfg.projectName ++ "] \\w $ \""
    [cfg.shellPath, "-c", miseActivationBash ++ "; " ++ ps1 ++
      "; exec bash --norc --noprofile"]
  else
    [cfg.shellPath, "-c", miseActivationBash ++ "; " ++ String.intercalate " " args]

/-- Embedding of `buildZshCommand` (`%%~` in the Go format string prints a
literal `%~`). -/
def buildZshCommand (cfg : ShellConfig) (args : List String) : List String :=
  if args = [] then
    let prompt := "PROMPT=\"🔒 [" ++ cfg.projectName ++ "] %~ $ \""
    [cfg.shellPath, "-c", miseActivationZsh ++ "; " ++ prompt ++ "; exec zsh --no-rcs"]
  else
    [cfg.shellPath, "-c", miseActivationZsh ++ "; " ++ String.intercalate " " args]

/-- Embedding of `BuildShellCommand`: dispatch on the shell, any
unrecognized shell string falling through to the bash builder. -/
def buildShellCommand (cfg : ShellConfig) (args : List String) : List String :=
  if cfg.shell = ShellFish then buildFishCommand cfg args
  else if cfg.shell = ShellZsh then buildZshCommand cfg args
  else buildBashCommand cfg args

/-- The shell-specific mise-activation snippet chosen by the builder that
`BuildShellCommand` dispatches to. -/
def miseActivationFor (shell : String) : String :=
  if shell = ShellFish then miseActivationFish
  else if shell = ShellZsh then miseActivationZsh
  else miseActivationBash

/-- C9: with a non-empty argument list, `BuildShellCommand` returns exactly
`[ShellPath, "-c", mise-snippet ++ "; " ++ join(args, " ")]`, so two
argument vectors with the same space-join yield the identical command. -/
theorem buildShellCommand_join (cfg : ShellConfig) (args : List String)
    (h : args ≠ []) :
    buildShellCommand cfg args =
      [cfg.shellPath, "-c",
        miseActivationFor cfg.shell ++ "; " ++ String.intercalate " " args] ∧
    (∀ args2 : List String, args2 ≠ [] →
      String.intercalate " " args2 = String.intercalate " " args →
      buildShellCommand cfg args2 = buildShellCommand cfg args) := by
  have hb : ∀ a : List String, a ≠ [] →
      buildShellCommand cfg a =
        [cfg.shellPath, "-c",
          miseActivationFor cfg.shell ++ "; " ++ String.intercalate " " a] := by
    intro a ha
    unfold buildShellCommand buildFishCommand buildBashCommand buildZshCommand
      miseActivationFor
    split_ifs <;> simp [ha]
  exact ⟨hb args h, fun args2 h2 hj => by rw [hb args h, hb args2 h2, hj]⟩

/-- Witness for C9: `["echo hi"]` and `["echo", "hi"]` have the same
space-join and produce the identical sandbox command. -/
theorem buildShellCommand_join_witness :
    buildShellCommand ⟨"bash", "/bin/bash", "proj"⟩ ["echo hi"] =
      buildShellCommand ⟨"bash", "/bin/bash", "proj"⟩ ["echo", "hi"] :=
  (buildShellCommand_join ⟨"bash", "/bin/bash", "proj"⟩ ["echo", "hi"]
    (by decide)).2 ["echo hi"] (by decide) (by decide)

/-! ## Network-isolation driver (bwrap package, `ExecWithPasta`) -/

/-- How the Go code launches the composed command: `syscall.Exec` replaces
the current process; `exec.Command` followed by `cmd.Run` spawns a child and
waits for it. -/
inductive ProcessMode where
  | replaceCurrent : ProcessMode
  | runChildAndWait : ProcessMode
deriving DecidableEq, Repr

/-- `bwrap.Exec` hands off with `syscall.Exec`, replacing the process. -/
def execMode : ProcessMode := ProcessMode.replaceCurrent

/-- `bwrap.ExecWithPasta` launches pasta with `exec.Command(...)` and
`cmd.Run()`, keeping the calling process (and its proxy goroutine) alive. -/
def execWithPastaMode : ProcessMode := ProcessMode.runChildAndWait

/-- The iptables wrapper fragment from `ExecWithPasta`: accept egress to the
gateway 10.0.2.2, reject everything else, then exec the passed arguments. -/
def wrapperScript : String :=
  "iptables -I OUTPUT -d 10.0.2.2 -j ACCEPT 2>/dev/null; iptables -A OUTPUT -j REJECT 2>/dev/null; exec \"$@\""

/-- The argument slice `ExecWithPasta` assembles before calling
`exec.Command(pastaPath, args...)`, mirroring the source's append order. -/
def pastaArgs (bwrapPath : String) (bwrapArgs shellCmd : List String) : List String :=
  "--config-net" :: "--map-host-loopback" :: "10.0.2.2" :: "-f" :: "--" ::
    "sh" :: "-c" :: wrapperScript :: "_" :: bwrapPath :: (bwrapArgs ++ "--" :: shellCmd)

/-- The full argument vector of the pasta child process:
`exec.Command(pastaPath, args...)` makes `pastaPath` argv[0]. -/
def execWithPastaArgv (pastaPath bwrapPath : String)
    (bwrapArgs shellCmd : List String) : List String :=
  pastaPath :: pastaArgs bwrapPath bwrapArgs shellCmd

/-- C8: `ExecWithPasta` builds exactly the vector
`pasta --config-net --map-host-loopback 10.0.2.2 -f -- sh -c <wrapper> _
<bwrap-path> <bwrap-args> -- <shell-cmd>`; the wrapper installs the ACCEPT
rule for 10.0.2.2 and then the catch-all REJECT rule before exec'ing its
arguments; and the command runs as a waited-for child process, not by
replacing the current process. -/
theorem execWithPasta_argv_and_mode (pastaPath bwrapPath : String)
    (bwrapArgs shellCmd : List String) :
    execWithPastaArgv pastaPath bwrapPath bwrapArgs shellCmd =
      [pastaPath, "--config-net", "--map-host-loopback", "10.0.2.2", "-f", "--",
        "sh", "-c", wrapperScript, "_", bwrapPath] ++ bwrapArgs ++ ["--"] ++ shellCmd ∧
    wrapperScript =
      "iptables -I OUTPUT -d 10.0.2.2 -j ACCEPT 2>/dev/null" ++ "; " ++
        "iptables -A OUTPUT -j REJECT 2>/dev/null" ++ "; " ++ "exec \"$@\"" ∧
    execWithPastaMode = ProcessMode.runChildAndWait ∧
    execWithPastaMode ≠ execMode := by
  refine ⟨?_, by decide, rfl, by decide⟩
  simp [execWithPastaArgv, pastaArgs]

/-! ## Proxy server port binding (`Server.Start`, filter_types.go:338-397) -/

/-- Outcome of one `net.Listen("tcp", "127.0.0.1:<port>")` attempt, as the
retry loop distinguishes them: success, `EADDRINUSE` (per `isAddrInUse`),
or any other listen error. -/
inductive ListenOutcome where
  | success : ListenOutcome
  | addrInUse : ListenOutcome
  | otherErr : ListenOutcome
deriving DecidableEq, Repr

/-- Result of the retry loop in `Server.Start`: a bound port, a fatal
non-EADDRINUSE listen error at some port, or exhaustion of all retries. -/
inductive StartResult where
  | ok : Nat → StartResult
  | fatalListen : Nat → StartResult
  | exhausted : StartResult
deriving DecidableEq, Repr

/-- The fields of the proxy `Config` that `Server.Start` reads and writes. -/
structure ProxyServerConfig where
  port : Nat
deriving DecidableEq, Repr

/-- Embedding of the `for i := 0; i < MaxPortRetries; i++` loop of
`Server.Start`: try the current port against the listen environment `env`;
on success stop, on address-in-use advance to the next port, on any other
error fail at once. `fuel` is the number of attempts remaining. -/
def startLoop (env : Nat → ListenOutcome) : Nat → Nat → StartResult
  | _, 0 => StartResult.exhausted
  | port, fuel + 1 =>
    match env port with
    | ListenOutcome.success => StartResult.ok port
    | ListenOutcome.addrInUse => startLoop env (port + 1) fuel
    | ListenOutcome.otherErr => StartResult.fatalListen port

/-- Embedding of `Server.Start`'s port acquisition: run the retry loop from
the configured port with `MaxPortRetries` attempts (`maxRetries` here, as
the constant's value is declared outside the sources under study) and, on
success, write the actually bound port back into the config. -/
def serverStart (env : Nat → ListenOutcome) (maxRetries : Nat)
    (cfg : ProxyServerConfig) : StartResult × ProxyServerConfig :=
  match startLoop env cfg.port maxRetries with
  | StartResult.ok q => (StartResult.ok q, { cfg with port := q })
  | r => (r, cfg)

/-- Embedding of `Server.Port()`: returns the config's port field. -/
def serverPort (cfg : ProxyServerConfig) : Nat := cfg.port

theorem startLoop_ok_bounds (env : Nat → ListenOutcome) :
    ∀ n p q, startLoop env p n = StartResult.ok q →
      p ≤ q ∧ q < p + n ∧ env q = ListenOutcome.success ∧
      ∀ r, p ≤ r → r < q → env r = ListenOutcome.addrInUse := by
  intro n
  induction n with
  | zero => intro p q h; simp [startLoop] at h
  | succ m ih =>
    intro p q h
    unfold startLoop at h
    cases he : env p with
    | success =>
      rw [he] at h
      simp only [StartResult.ok.injEq] at h
      subst h
      exact ⟨le_refl p, by omega, he, fun r h1 h2 => absurd h1 (by omega)⟩
    | addrInUse =>
      rw [he] at h
      obtain ⟨h1, h2, h3, h4⟩ := ih (p + 1) q h
      refine ⟨by omega, by omega, h3, fun r hr1 hr2 => ?_⟩
      rcases Nat.eq_or_lt_of_le hr1 with hre | hrl
      · rw [← hre]; exact he
      · exact h4 r hrl hr2
    | otherErr => rw [he] at h; exact absurd h (by simp)

theorem startLoop_fatal_bounds (env : Nat → ListenOutcome) :
    ∀ n p q, startLoop env p n = StartResult.fatalListen q →
      env q = ListenOutcome.otherErr ∧ p ≤ q ∧ q < p + n ∧
      ∀ r, p ≤ r → r < q → env r = ListenOutcome.addrInUse := by
  intro n
  induction n with
  | zero => intro p q h; simp [startLoop] at h
  | succ m ih =>
    intro p q h
    unfold startLoop at h
    cases he : env p with
    | success => rw [he] at h; exact absurd h (by simp)
    | addrInUse =>
      rw [he] at h
      obtain ⟨h1, h2, h3, h4⟩ := ih (p + 1) q h
      refine ⟨h1, by omega, by omega, fun r hr1 hr2 => ?_⟩
      rcases Nat.eq_or_lt_of_le hr1 with hre | hrl
      · rw [← hre]; exact he
      · exact h4 r hrl hr2
    | otherErr =>
      rw [he] at h
      simp only [StartResult.fatalListen.injEq] at h
      subst h
      exact ⟨he, le_refl p, by omega, fun r h1 h2 => absurd h1 (by omega)⟩

/-- C4: a successful `Start` binds some port in
`[configured_port, configured_port + MaxPortRetries)` after seeing only
address-in-use errors on the earlier ports, and writes the bound port back
into the config so `Port()` returns it; a non-EADDRINUSE listen error stops
the retrying immediately (in particular at the very first port). -/
theorem serverStart_port_acquisition (env : Nat → ListenOutcome)
    (cfg : ProxyServerConfig) (n : Nat) :
    (∀ q cfg2, serverStart env n cfg = (StartResult.ok q, cfg2) →
      cfg.port ≤ q ∧ q < cfg.port + n ∧ env q = ListenOutcome.success ∧
      (∀ r, cfg.port ≤ r → r < q → env r = ListenOutcome.addrInUse) ∧
      serverPort cfg2 = q) ∧
    (∀ q cfg2, serverStart env n cfg = (StartResult.fatalListen q, cfg2) →
      env q = ListenOutcome.otherErr ∧
      (∀ r, cfg.port ≤ r → r < q → env r = ListenOutcome.addrInUse) ∧
      cfg2 = cfg) ∧
    (env cfg.port = ListenOutcome.otherErr → 0 < n →
      serverStart env n cfg = (StartResult.fatalListen cfg.port, cfg)) := by
  refine ⟨fun q cfg2 h => ?_, fun q cfg2 h => ?_, fun he hn => ?_⟩
  · unfold serverStart at h
    cases hl : startLoop env cfg.port n with
    | ok q2 =>
      rw [hl] at h
      obtain ⟨hq, hcfg⟩ : StartResult.ok q2 = StartResult.ok q ∧
          ({ cfg with port := q2 } : ProxyServerConfig) = cfg2 := by
        exact ⟨congrArg Prod.fst h, congrArg Prod.snd h⟩
      simp only [StartResult.ok.injEq] at hq
      subst hq
      obtain ⟨h1, h2, h3, h4⟩ := startLoop_ok_bounds env n cfg.port q2 hl
      exact ⟨h1, h2, h3, h4, by rw [← hcfg]; rfl⟩
    | fatalListen q2 => rw [hl] at h; exact absurd (congrArg Prod.fst h) (by simp)
    | exhausted => rw [hl] at h; exact absurd (congrArg Prod.fst h) (by simp)
  · unfold serverStart at h
    cases hl : startLoop env cfg.port n with
    | ok q2 => rw [hl] at h; exact absurd (congrArg Prod.fst h) (by simp)
    | fatalListen q2 =>
      rw [hl] at h
      have hq := congrArg Prod.fst h
      simp only [StartResult.fatalListen.injEq] at hq
      subst hq
      obtain ⟨h1, _, _, h4⟩ := startLoop_fatal_bounds env n cfg.port q2 hl
      exact ⟨h1, h4, (congrArg Prod.snd h).symm⟩
    | exhausted => rw [hl] at h; exact absurd (congrArg Prod.fst h) (by simp)
  · obtain ⟨m, rfl⟩ : ∃ m, n = m + 1 := ⟨n - 1, by omega⟩
    unfold serverStart startLoop
    rw [he]

/-- Witness for C4: with port 18084 busy and 18085 free, `Start` configured
for 18084 with 10 retries binds 18085 and `Port()` reports 18085. -/
theorem serverStart_port_acquisition_witness :
    serverPort ⟨18085⟩ = 18085 :=
  ((serverStart_port_acquisition
      (fun r => if r = 18084 then ListenOutcome.addrInUse else ListenOutcome.success)
      ⟨18084⟩ 10).1 18085 ⟨18085⟩ (by decide)).2.2.2.2

/-! ## Session lock (sandbox package, `AcquireSessionLock` / `IsSessionActive`)

The advisory-lock state of `<sandboxRoot>/.lock` is modelled explicitly:
whether the file exists, how many shared (`LOCK_SH`) holders there are, and
whether an exclusive (`LOCK_EX`) lock is held. Each Go syscall becomes one
state transition; non-blocking `flock` either succeeds or reports failure
without blocking. -/

/-- Persistent advisory-lock state of a sandbox's `.lock` file. -/
structure LockWorld where
  fileExists : Bool
  shared : Nat
  excl : Bool
deriving DecidableEq, Repr

/-- `syscall.Flock(fd, LOCK_SH|LOCK_NB)`: succeeds (adding a shared holder)
unless an exclusive lock is held. -/
def flockShared (w : LockWorld) : Option LockWorld :=
  if w.excl then none else some { w with shared := w.shared + 1 }

/-- `syscall.Flock(fd, LOCK_EX|LOCK_NB)`: succeeds only when no shared and
no exclusive holder exists. -/
def flockExclusive (w : LockWorld) : Option LockWorld :=
  if w.shared = 0 ∧ w.excl = false then some { w with excl := true } else none

/-- `syscall.Flock(fd, LOCK_UN)` on a descriptor holding the exclusive
lock. -/
def flockUnlock (w : LockWorld) : LockWorld := { w with excl := false }

/-- Embedding of `AcquireSessionLock`: open `<root>/.lock` with
`O_CREATE|O_RDWR` (the file now exists), then take a shared non-blocking
lock; on lock failure the descriptor is closed but the created file
remains. Returns the new state and the success flag. -/
def acquireSessionLock (w : LockWorld) : LockWorld × Bool :=
  let w1 := { w with fileExists := true }
  match flockShared w1 with
  | none => (w1, false)
  | some w2 => (w2, true)

/-- A session holder closing its lock file (`f.Close()`), which releases
its shared lock. -/
def closeSessionLock (w : LockWorld) : LockWorld :=
  { w with shared := w.shared - 1 }

/-- Embedding of `IsSessionActive`: open `<root>/.lock` without `O_CREATE`
(a missing file means no active session); try an exclusive non-blocking
lock; failure means some session holds the shared lock (active); success
means no session, so unlock immediately and close. -/
def isSessionActive (w : LockWorld) : LockWorld × Bool :=
  if w.fileExists = false then (w, false)
  else
    match flockExclusive w with
    | none => (w, true)
    | some w1 => (flockUnlock w1, false)

/-- `k` successive `AcquireSessionLock` calls; the flag records that every
one of them succeeded. -/
def acquireAll : Nat → LockWorld → LockWorld × Bool
  | 0, w => (w, true)
  | k + 1, w =>
    let r1 := acquireSessionLock w
    let r2 := acquireAll k r1.1
    (r2.1, r1.2 && r2.2)

/-- `k` holders closing their lock files. -/
def releaseAll : Nat → LockWorld → LockWorld
  | 0, w => w
  | k + 1, w => releaseAll k (closeSessionLock w)

theorem acquireAll_eq (k : Nat) :
    ∀ w : LockWorld, w.excl = false → 0 < k →
      acquireAll k w =
        ({ fileExists := true, shared := w.shared + k, excl := false }, true) := by
  induction k with
  | zero => intro w _ hk; exact absurd hk (by omega)
  | succ m ih =>
    intro w h _
    have hstep : acquireSessionLock w =
        ({ fileExists := true, shared := w.shared + 1, excl := false }, true) := by
      unfold acquireSessionLock flockShared
      simp [h]
    rcases Nat.eq_zero_or_pos m with h0 | hpos
    · subst h0
      simp [acquireAll, hstep]
    · have hrec := ih ({ fileExists := true, shared := w.shared + 1, excl := false })
        rfl hpos
      simp only [acquireAll, hstep, hrec, Bool.and_self]
      simp only [Prod.mk.injEq, LockWorld.mk.injEq, true_and, and_true]
      omega

theorem releaseAll_shared (k : Nat) :
    ∀ w : LockWorld, releaseAll k w =
      { w with shared := w.shared - k } := by
  induction k with
  | zero => intro w; rfl
  | succ m ih =>
    intro w
    unfold releaseAll closeSessionLock
    rw [ih]
    simp only [LockWorld.mk.injEq, true_and, and_true]
    omega

/-- C5: starting from a sandbox with no lock holders, any number `k ≥ 1` of
`AcquireSessionLock` calls all succeed (the lock is shared); while they are
held `IsSessionActive` reports true; after every holder closes its file,
`IsSessionActive` reports false. -/
theorem sessionLock_shared_semantics (w : LockWorld) (k : Nat)
    (hexcl : w.excl = false) (hshared : w.shared = 0) (hk : 1 ≤ k) :
    (acquireAll k w).2 = true ∧
    (isSessionActive (acquireAll k w).1).2 = true ∧
    (isSessionActive (releaseAll k (acquireAll k w).1)).2 = false := by
  rw [acquireAll_eq k w hexcl (by omega), hshared]
  refine ⟨rfl, ?_, ?_⟩
  · unfold isSessionActive flockExclusive
    have hkne : k ≠ 0 := by omega
    simp [hkne]
  · rw [releaseAll_shared]
    unfold isSessionActive flockExclusive flockUnlock
    simp

/-- Witness for C5: two sessions acquire the lock on a fresh sandbox; both
succeed, the sandbox reads active while they hold it, and inactive after
both close. -/
theorem sessionLock_shared_semantics_witness :
    (acquireAll 2 ⟨false, 0, false⟩).2 = true ∧
    (isSessionActive (acquireAll 2 ⟨false, 0, false⟩).1).2 = true ∧
    (isSessionActive (releaseAll 2 (acquireAll 2 ⟨false, 0, false⟩).1)).2 = false :=
  sessionLock_shared_semantics ⟨false, 0, false⟩ 2 rfl rfl (by decide)

/-- C10: `IsSessionActive` is a pure probe: it leaves the persistent lock
state exactly as it found it (no file created, no lock still held), and it
returns false when the lock file does not exist. -/
theorem isSessionActive_frame (w : LockWorld) :
    (isSessionActive w).1 = w ∧
    (w.fileExists = false → (isSessionActive w).2 = false) := by
  constructor
  · unfold isSessionActive flockExclusive flockUnlock
    rcases hfe : w.fileExists with _ | _
    · simp
    · simp only [Bool.true_eq_false, if_false]
      by_cases hc : w.shared = 0 ∧ w.excl = false
      · simp only [hc, if_true]
        obtain ⟨_, hx⟩ := hc
        cases w
        simp_all
      · simp [hc]
  · intro h
    unfold isSessionActive
    simp [h]

/-- Witness for C10: probing a sandbox whose lock file does not exist
reports an inactive session. -/
theorem isSessionActive_frame_witness :
    (isSessionActive ⟨false, 0, false⟩).2 = false :=
  (isSessionActive_frame ⟨false, 0, false⟩).2 rfl

/-! ## Sandbox naming (`internal/sandbox/config.go`)

`GenerateSandboxName` feeds the project path through Go's `crypto/sha256`
standard library. The hash is embedded concretely below (FIPS 180-4
SHA-256 over the path's UTF-8 bytes, exactly what `sha256.Sum256([]byte(p))`
computes), with 32-bit words as `Nat` reduced mod `2^32`. -/

/-- Reduce to a 32-bit word, the wrap-around Go's `uint32` applies. -/
def w32 (x : Nat) : Nat := x % 4294967296

/-- Right rotation of a 32-bit word. -/
def rotr32 (n x : Nat) : Nat := w32 ((x >>> n) ||| (x <<< (32 - n)))

/-- SHA-256 choice function `Ch(x,y,z)`; `x ^^^ 0xffffffff` is 32-bit
complement. -/
def shaCh (x y z : Nat) : Nat := (x &&& y) ^^^ ((x ^^^ 4294967295) &&& z)

/-- SHA-256 majority function `Maj(x,y,z)`. -/
def shaMaj (x y z : Nat) : Nat := (x &&& y) ^^^ (x &&& z) ^^^ (y &&& z)

/-- SHA-256 `Σ0`. -/
def bigSigma0 (x : Nat) : Nat := rotr32 2 x ^^^ rotr32 13 x ^^^ rotr32 22 x

/-- SHA-256 `Σ1`. -/
def bigSigma1 (x : Nat) : Nat := rotr32 6 x ^^^ rotr32 11 x ^^^ rotr32 25 x

/-- SHA-256 `σ0`. -/
def smallSigma0 (x : Nat) : Nat := rotr32 7 x ^^^ rotr32 18 x ^^^ (x >>> 3)

/-- SHA-256 `σ1`. -/
def smallSigma1 (x : Nat) : Nat := rotr32 17 x ^^^ rotr32 19 x ^^^ (x >>> 10)

/-- The 64 SHA-256 round constants. -/
def shaK : List Nat :=
  [1116352408, 1899447441, 3049323471, 3921009573, 961987163,
   1508970993, 2453635748, 2870763221, 3624381080, 310598401,
   607225278, 1426881987, 1925078388, 2162078206, 2614888103,
   3248222580, 3835390401, 4022224774, 264347078, 604807628,
   770255983, 1249150122, 1555081692, 1996064986, 2554220882,
   2821834349, 2952996808, 3210313671, 3336571891, 3584528711,
   113926993, 338241895, 666307205, 773529912, 1294757372,
   1396182291, 1695183700, 1986661051, 2177026350, 2456956037,
   2730485921, 2820302411, 3259730800, 3345764771, 3516065817,
   3600352804, 4094571909, 275423344, 430227734, 506948616,
   659060556, 883997877, 958139571, 1322822218, 1537002063,
   1747873779, 1955562222, 2024104815, 2227730452, 2361852424,
   2428436474, 2756734187, 3204031479, 3329325298]

/-- The eight SHA-256 working variables. -/
structure Sha256State where
  a : Nat
  b : Nat
  c : Nat
  d : Nat
  e : Nat
  f : Nat
  g : Nat
  h : Nat
deriving Repr, DecidableEq

/-- The SHA-256 initial hash value. -/
def shaInit : Sha256State :=
  ⟨1779033703, 3144134277, 1013904242, 2773480762,
   1359893119, 2600822924, 528734635, 1541459225⟩

/-- Big-endian byte decomposition of `n` into `k` bytes. -/
def toBytesBE (k n : Nat) : List Nat :=
  (List.range k).map (fun i => (n >>> (8 * (k - 1 - i))) % 256)

/-- SHA-256 padding: a 0x80 byte, zeros to 56 mod 64, then the bit length
as 8 big-endian bytes. -/
def padMessage (msg : List Nat) : List Nat :=
  let zeros := (119 - msg.length % 64) % 64
  msg ++ 0x80 :: List.replicate zeros 0 ++ toBytesBE 8 (msg.length * 8)

/-- Split into 64-byte blocks; the fuel argument (instantiated with the
list length, which bounds the number of blocks) keeps the recursion
structural. -/
def chunksGo : Nat → List Nat → List (List Nat)
  | 0, _ => []
  | _, [] => []
  | fuel + 1, a :: rest => ((a :: rest).take 64) :: chunksGo fuel ((a :: rest).drop 64)

/-- All 64-byte blocks of a padded message. -/
def chunks64 (l : List Nat) : List (List Nat) := chunksGo l.length l

/-- Big-endian 32-bit word at word index `i` of a block. -/
def wordAt (bs : List Nat) (i : Nat) : Nat :=
  (bs.getD (4 * i) 0) <<< 24 ||| (bs.getD (4 * i + 1) 0) <<< 16 |||
    (bs.getD (4 * i + 2) 0) <<< 8 ||| bs.getD (4 * i + 3) 0

/-- The 64-entry SHA-256 message schedule of one block. -/
def msgSchedule (block : List Nat) : List Nat :=
  let w0 := (List.range 16).map (wordAt block)
  (List.range 48).foldl
    (fun w _ =>
      w ++ [w32 (smallSigma1 (w.getD (w.length - 2) 0) + w.getD (w.length - 7) 0 +
        smallSigma0 (w.getD (w.length - 15) 0) + w.getD (w.length - 16) 0)])
    w0

/-- One SHA-256 compression round. -/
def shaRound (ws : List Nat) (s : Sha256State) (i : Nat) : Sha256State :=
  let t1 := w32 (s.h + bigSigma1 s.e + shaCh s.e s.f s.g + shaK.getD i 0 + ws.getD i 0)
  let t2 := w32 (bigSigma0 s.a + shaMaj s.a s.b s.c)
  ⟨w32 (t1 + t2), s.a, s.b, s.c, w32 (s.d + t1), s.e, s.f, s.g⟩

/-- SHA-256 compression of one 64-byte block. -/
def shaCompress (s : Sha256State) (block : List Nat) : Sha256State :=
  let ws := msgSchedule block
  let t := (List.range 64).foldl (shaRound ws) s
  ⟨w32 (s.a + t.a), w32 (s.b + t.b), w32 (s.c + t.c), w32 (s.d + t.d),
   w32 (s.e + t.e), w32 (s.f + t.f), w32 (s.g + t.g), w32 (s.h + t.h)⟩

/-- SHA-256 digest (32 bytes) of a byte sequence: what Go's
`sha256.Sum256` returns. -/
def sha256Bytes (msg : List Nat) : List Nat :=
  let s := (chunks64 (padMessage msg)).foldl shaCompress shaInit
  toBytesBE 4 s.a ++ toBytesBE 4 s.b ++ toBytesBE 4 s.c ++ toBytesBE 4 s.d ++
    toBytesBE 4 s.e ++ toBytesBE 4 s.f ++ toBytesBE 4 s.g ++ toBytesBE 4 s.h

/-- Lowercase hex digit, as Go's `hex.EncodeToString` produces. -/
def hexDigitChar (n : Nat) : Char :=
  if n < 10 then Char.ofNat (48 + n) else Char.ofNat (87 + n)

/-- Two lowercase hex characters of one byte. -/
def byteHexChars (b : Nat) : List Char := [hexDigitChar (b / 16), hexDigitChar (b % 16)]

/-- UTF-8 encoding of one character; `[]byte(string)` in Go yields exactly
these bytes. -/
def utf8EncodeChar (c : Char) : List Nat :=
  let n := c.toNat
  if n < 0x80 then [n]
  else if n < 0x800 then [0xc0 ||| (n >>> 6), 0x80 ||| (n &&& 0x3f)]
  else if n < 0x10000 then
    [0xe0 ||| (n >>> 12), 0x80 ||| ((n >>> 6) &&& 0x3f), 0x80 ||| (n &&& 0x3f)]
  else
    [0xf0 ||| (n >>> 18), 0x80 ||| ((n >>> 12) &&& 0x3f),
     0x80 ||| ((n >>> 6) &&& 0x3f), 0x80 ||| (n &&& 0x3f)]

/-- UTF-8 bytes of a string. -/
def utf8Bytes (s : String) : List Nat := (s.data.map utf8EncodeChar).flatten

/-- Hex characters of the sha256 digest of a string, i.e. Go's
`hex.EncodeToString(sha256.Sum256([]byte(s))[:])`. -/
def sha256hexChars (s : String) : List Char :=
  ((sha256Bytes (utf8Bytes s)).map byteHexChars).flatten

/-- Characters the sanitizing regex `[^a-zA-Z0-9._-]` leaves untouched. -/
def isProjectNameChar (c : Char) : Bool :=
  ('a' ≤ c && c ≤ 'z') || ('A' ≤ c && c ≤ 'Z') || ('0' ≤ c && c ≤ '9') ||
    c = '.' || c = '_' || c = '-'

/-- Embedding of `SanitizeProjectName` (config.go:205-207): the regex
`[^a-zA-Z0-9._-]` matches one character at a time, and `ReplaceAllString`
replaces each match with `_`. -/
def sanitizeProjectName (name : String) : String :=
  String.mk (name.data.map (fun c => if isProjectNameChar c then c else '_'))

/-- Drop trailing `/` characters, as the stripping loop in Go's
`filepath.Base` does. -/
def stripTrailingSlashes (l : List Char) : List Char :=
  (l.reverse.dropWhile (fun c => c = '/')).reverse

/-- The part after the last `/` (the whole list when there is none),
matching the `LastIndex` cut in Go's `filepath.Base`. -/
def afterLastSlash (l : List Char) : List Char :=
  (l.reverse.takeWhile (fun c => c ≠ '/')).reverse

/-- Embedding of Go's `filepath.Base` on unix paths (no volume names):
empty path gives `"."`, trailing slashes are stripped, the last component
is kept, and an all-slash path gives `"/"`. -/
def filepathBase (path : String) : String :=
  if path.data = [] then "."
  else
    let base := afterLastSlash (stripTrailingSlashes path.data)
    if base = [] then "/" else String.mk base

/-- Embedding of `GenerateSandboxName` (config.go:211-216): sanitized
basename, a dash, and the first 8 hex characters of the path's sha256. -/
def generateSandboxName (projectDir : String) : String :=
  sanitizeProjectName (filepathBase projectDir) ++ "-" ++
    String.mk ((sha256hexChars projectDir).take 8)

/-- C6: the sandbox name is the sanitized basename of the project path,
`-`, and the first 8 sha256 hex characters of the full path; naming is
deterministic; and two paths with equal sanitized basenames get different
names whenever their 8-character hash abbreviations differ. -/
theorem generateSandboxName_shape_unique :
    (∀ p : String, generateSandboxName p =
      sanitizeProjectName (filepathBase p) ++ "-" ++
        String.mk ((sha256hexChars p).take 8)) ∧
    (∀ p q : String, p = q → generateSandboxName p = generateSandboxName q) ∧
    (∀ p q : String,
      sanitizeProjectName (filepathBase p) = sanitizeProjectName (filepathBase q) →
      (sha256hexChars p).take 8 ≠ (sha256hexChars q).take 8 →
      generateSandboxName p ≠ generateSandboxName q) := by
  refine ⟨fun p => rfl, fun p q h => congrArg _ h, fun p q hbase hhash hn => ?_⟩
  apply hhash
  unfold generateSandboxName at hn
  rw [hbase] at hn
  have hd := congrArg String.data hn
  have happ : ∀ a b : String, (a ++ b).data = a.data ++ b.data := fun a b => rfl
  rw [happ, happ, happ, happ] at hd
  rw [List.append_assoc, List.append_assoc] at hd
  have h2 := List.append_cancel_left hd
  have h3 := List.append_cancel_left h2
  exact h3

set_option maxRecDepth 100000 in
/-- Witness for C6: `/home/user/proj` and `/tmp/proj` share the basename
`proj`, their sha256 abbreviations differ, and their sandbox names differ. -/
theorem generateSandboxName_shape_unique_witness :
    generateSandboxName "/home/user/proj" ≠ generateSandboxName "/tmp/proj" :=
  generateSandboxName_shape_unique.2.2 "/home/user/proj" "/tmp/proj"
    (by decide) (by decide)

/-! ## Rotating log sink

The `RotatingFileWriter` implementation file is not among the sources under
study; only its tests (`TestRotatingFileWriter_*`) and its caller
(`NewRequestLogger`, which hands every serialized record plus newline to
`writer.Write`) are. The writer is therefore modelled from the spec:
on `Write`, if `current_bytes + len(bytes) > max_size` (max_size defaulting
to ~10 MiB, matching `DefaultMaxLogSize = 10*1024*1024`), close the current
stream and open a fresh file before writing; after rotation delete the
oldest files (by modification time) until at most `max_files` remain.
State is the list of on-disk log files, oldest first, each tracked by its
uncompressed byte count; the last entry is the currently open file. -/

/-- The fields of `RotatingFileWriterConfig` as passed by callers and
tests: directory, name parts, size trigger and retention count. -/
structure RotatingFileWriterConfig where
  dir : String
  pre : String
  suf : String
  maxSize : Nat
  maxFiles : Nat
deriving DecidableEq, Repr

/-- Modelled from the spec: on-disk rotating-writer state, the uncompressed
sizes of the matching log files ordered by modification time (oldest
first); the final entry is the open file. -/
structure RotatingFileWriterState where
  files : List Nat
deriving DecidableEq, Repr

/-- Go constant `DefaultMaxLogSize = 10 * 1024 * 1024`. -/
def defaultMaxLogSize : Nat := 10485760

/-- Modelled from the spec: the size trigger, with the ~10 MiB default
applied when the config leaves `MaxSize` zero. -/
def effectiveMaxSize (cfg : RotatingFileWriterConfig) : Nat :=
  if cfg.maxSize = 0 then defaultMaxLogSize else cfg.maxSize

/-- Bytes already written to the currently open file. -/
def currentBytes (s : RotatingFileWriterState) : Nat := s.files.getLastD 0

/-- Modelled from the spec: delete the oldest files until at most
`maxFiles` remain; files are ordered oldest first, so deletion drops from
the front. -/
def pruneOldest (maxFiles : Nat) (files : List Nat) : List Nat :=
  files.drop (files.length - maxFiles)

/-- Modelled from the spec: rotation closes the current stream, opens a
fresh (empty) file, then prunes to the retention bound. -/
def rotateStream (cfg : RotatingFileWriterConfig)
    (s : RotatingFileWriterState) : RotatingFileWriterState :=
  ⟨pruneOldest cfg.maxFiles (s.files ++ [0])⟩

/-- Record `len` further bytes in the currently open file. -/
def appendToLast (files : List Nat) (len : Nat) : List Nat :=
  files.dropLast ++ [files.getLastD 0 + len]

/-- Modelled from the spec: `Write(bytes)` rotates first when the incoming
record would push the current file past the size trigger, then writes. -/
def writeRecord (cfg : RotatingFileWriterConfig)
    (s : RotatingFileWriterState) (len : Nat) : RotatingFileWriterState :=
  let s1 := if currentBytes s + len > effectiveMaxSize cfg then rotateStream cfg s else s
  ⟨appendToLast s1.files len⟩

/-- `NewRotatingFileWriter` opens the first (empty) log file. -/
def initWriter : RotatingFileWriterState := ⟨[0]⟩

/-- `RequestLogger.Log` (filter_types.go:512-524) marshals the entry,
appends a newline, and hands the bytes to the rotating writer. -/
def requestLoggerLog (cfg : RotatingFileWriterConfig)
    (s : RotatingFileWriterState) (entryLen : Nat) : RotatingFileWriterState :=
  writeRecord cfg s (entryLen + 1)

theorem length_pruneOldest (m : Nat) (files : List Nat) :
    (pruneOldest m files).length = min files.length m := by
  simp [pruneOldest]
  omega

theorem writeRecord_wf (cfg : RotatingFileWriterConfig) (hm : 1 ≤ cfg.maxFiles)
    (s : RotatingFileWriterState) (len : Nat)
    (hs : s.files ≠ [] ∧ s.files.length ≤ cfg.maxFiles) :
    (writeRecord cfg s len).files ≠ [] ∧
    (writeRecord cfg s len).files.length ≤ cfg.maxFiles := by
  obtain ⟨hne, hlen⟩ := hs
  unfold writeRecord
  split_ifs with htrig
  · constructor
    · simp [appendToLast]
    · have h1 : (rotateStream cfg s).files.length ≤ cfg.maxFiles := by
        rw [rotateStream, length_pruneOldest]
        omega
      have h2 : (rotateStream cfg s).files ≠ [] := by
        have : (rotateStream cfg s).files.length ≠ 0 := by
          rw [rotateStream, length_pruneOldest]
          simp only [List.length_append, List.length_cons, List.length_nil]
          omega
        intro hc
        rw [hc] at this
        exact this rfl
      simp only [appendToLast, List.length_append, List.length_dropLast,
        List.length_cons, List.length_nil]
      have : (rotateStream cfg s).files.length ≥ 1 := by
        cases hfe : (rotateStream cfg s).files with
        | nil => exact absurd hfe h2
        | cons a as => simp
      omega
  · constructor
    · simp [appendToLast]
    · simp only [appendToLast, List.length_append, List.length_dropLast,
        List.length_cons, List.length_nil]
      have : s.files.length ≥ 1 := by
        cases hfe : s.files with
        | nil => exact absurd hfe hne
        | cons a as => simp
      omega

theorem foldl_writeRecord_wf (cfg : RotatingFileWriterConfig)
    (hm : 1 ≤ cfg.maxFiles) :
    ∀ (writes : List Nat) (s : RotatingFileWriterState),
      s.files ≠ [] ∧ s.files.length ≤ cfg.maxFiles →
      (writes.foldl (writeRecord cfg) s).files ≠ [] ∧
      (writes.foldl (writeRecord cfg) s).files.length ≤ cfg.maxFiles := by
  intro writes
  induction writes with
  | nil => intro s hs; exact hs
  | cons a as ih =>
    intro s hs
    exact ih (writeRecord cfg s a) (writeRecord_wf cfg hm s a hs)

/-- C1: whenever the bytes in the current file plus the incoming record
would exceed the size trigger, the writer opens a fresh file and the
record lands there (current count equals the record size, and equals the
old count plus the record size otherwise); after any sequence of writes
from a fresh logger the on-disk file count is at most `max_files`; and
pruning removes only the oldest files (the survivors are a suffix of the
modification-time-ordered list). -/
theorem rotatingWriter_rotation_and_bound (cfg : RotatingFileWriterConfig) :
    (∀ (s : RotatingFileWriterState) (len : Nat), 1 ≤ cfg.maxFiles →
      (currentBytes s + len > effectiveMaxSize cfg →
        writeRecord cfg s len = ⟨appendToLast (rotateStream cfg s).files len⟩ ∧
        currentBytes (writeRecord cfg s len) = len) ∧
      (¬ currentBytes s + len > effectiveMaxSize cfg →
        currentBytes (writeRecord cfg s len) = currentBytes s + len)) ∧
    (∀ writes : List Nat, 1 ≤ cfg.maxFiles →
      ((writes.foldl (writeRecord cfg) initWriter).files).length ≤ cfg.maxFiles) ∧
    (∀ files : List Nat, pruneOldest cfg.maxFiles files <:+ files) := by
  refine ⟨fun s len hm => ⟨fun htrig => ⟨?_, ?_⟩, fun hno => ?_⟩,
    fun writes hm => ?_, fun files => ?_⟩
  · unfold writeRecord
    rw [if_pos htrig]
  · unfold writeRecord
    rw [if_pos htrig]
    have hlast : (rotateStream cfg s).files.getLastD 0 = 0 := by
      unfold rotateStream pruneOldest
      have hle : s.files.length + 1 - cfg.maxFiles ≤ s.files.length := by omega
      show (List.drop ((s.files ++ [0]).length - cfg.maxFiles) (s.files ++ [0])).getLastD 0 = 0
      have h0 : (s.files ++ [0]).length = s.files.length + 1 := by simp
      rw [h0, List.drop_append_of_le_length hle, List.getLastD_concat]
    simp only [currentBytes, appendToLast, List.getLastD_concat, hlast, Nat.zero_add]
  · unfold writeRecord
    rw [if_neg hno]
    simp only [currentBytes, appendToLast, List.getLastD_concat]
  · exact (foldl_writeRecord_wf cfg hm writes initWriter
      ⟨by simp [initWriter], by simp [initWriter]; omega⟩).2
  · exact List.drop_suffix _ _

/-- Witness for C1: ten 31-byte writes against a 50-byte size trigger and
a retention bound of 2 leave at most 2 files on disk. -/
theorem rotatingWriter_rotation_and_bound_witness :
    (((List.replicate 10 31).foldl
        (writeRecord ⟨"", "test", ".log.gz", 50, 2⟩) initWriter).files).length ≤ 2 :=
  (rotatingWriter_rotation_and_bound ⟨"", "test", ".log.gz", 50, 2⟩).2.1
    (List.replicate 10 31) (by decide)

/-! ## Request-log file naming (`RequestLogger.rotate` / `findNextIndex`)

`rotate` names the next log file `requests_<YYYYMMDD>_<%04d><suffix>` and
`findNextIndex` chooses the index as `len(filepath.Glob(dir/requests_<today>_*<suffix>))`,
the number of files already matching today's pattern. The directory is
modelled as the list of its entry names (directory entries never contain
`/`, so the single `*` matches any run of characters). -/

/-- Go constant `LogFilePrefix = "requests"`. -/
def logFilePre : String := "requests"

/-- Go constant `LogFileSuffix = ".jsonl.gz"`. -/
def logFileSuf : String := ".jsonl.gz"

/-- The fixed part `requests_<today>_` that today's glob pattern starts
with. -/
def todayPat (today : String) : String := logFilePre ++ "_" ++ today ++ "_"

/-- Whether a directory entry matches the glob
`requests_<today>_*<suffix>`: it starts with `requests_<today>_`, ends with
the suffix, and is long enough that the two do not overlap (`*` may match
the empty run). -/
def isTodayLogFile (today name : String) : Bool :=
  (todayPat today).data.isPrefixOf name.data &&
    (logFileSuf.data.isSuffixOf name.data &&
      decide ((todayPat today).length + logFileSuf.length ≤ name.length))

/-- Embedding of `RequestLogger.findNextIndex`: the number of directory
entries matching today's pattern. -/
def findNextIndex (today : String) (dirFiles : List String) : Nat :=
  (dirFiles.filter (fun n => isTodayLogFile today n)).length

/-- Go's `%04d`: decimal digits, zero-padded on the left to width at
least 4. -/
def pad4 (n : Nat) : String :=
  String.mk (List.replicate (4 - (Nat.repr n).length) '0') ++ Nat.repr n

/-- The file name `rotate` formats with
`fmt.Sprintf("%s_%s_%04d%s", prefix, today, index, suffix)`. -/
def logFileName (today : String) (idx : Nat) : String :=
  logFilePre ++ "_" ++ today ++ "_" ++ pad4 idx ++ logFileSuf

/-- Embedding of the name `rotate` opens next, given today's directory
contents. -/
def rotateFileName (today : String) (dirFiles : List String) : String :=
  logFileName today (findNextIndex today dirFiles)

/-- Decimal parse of a digit run (used only to express the spec's notion
of the index carried by an existing file name). -/
def parseDecimalDigits (l : List Char) : Option Nat :=
  if !l.isEmpty && l.all (fun c => c.isDigit) then
    some (l.foldl (fun acc c => acc * 10 + (c.toNat - 48)) 0)
  else none

/-- The index encoded in a matching file name: the digits between
`requests_<today>_` and the suffix. -/
def extractIndex (today name : String) : Option Nat :=
  if isTodayLogFile today name then
    parseDecimalDigits ((name.data.drop (todayPat today).length).take
      (name.length - (todayPat today).length - logFileSuf.length))
  else none

/-- Written from the spec's words, for comparison with `findNextIndex`:
`index is 1 + max(existing indices for today)` (0 when no file for today
exists yet). -/
def specNextIndex (today : String) (dirFiles : List String) : Nat :=
  let idxs := dirFiles.filterMap (extractIndex today)
  if idxs.isEmpty then 0 else 1 + idxs.foldl max 0

theorem isTodayLogFile_logFileName (today : String) (idx : Nat) :
    isTodayLogFile today (logFileName today idx) = true := by
  unfold isTodayLogFile
  have hd : (logFileName today idx).data =
      (todayPat today).data ++ ((pad4 idx).data ++ logFileSuf.data) := by
    show ((todayPat today).data ++ (pad4 idx).data) ++ logFileSuf.data = _
    rw [List.append_assoc]
  have hlen : (logFileName today idx).data.length =
      (todayPat today).data.length +
        ((pad4 idx).data.length + logFileSuf.data.length) := by
    rw [hd, List.length_append, List.length_append]
  simp only [Bool.and_eq_true, decide_eq_true_eq]
  refine ⟨by simp [hd], ?_, ?_⟩
  · rw [hd]
    have h1 : logFileSuf.data <:+
        (todayPat today).data ++ ((pad4 idx).data ++ logFileSuf.data) :=
      (List.suffix_append (pad4 idx).data logFileSuf.data).trans
        (List.suffix_append (todayPat today).data
          ((pad4 idx).data ++ logFileSuf.data))
    simpa using h1
  · show (todayPat today).data.length + logFileSuf.data.length ≤
      (logFileName today idx).data.length
    rw [hlen]
    omega

/-- C2 counterexample: with the single existing file
`requests_20250101_0005.jsonl.gz` for the day, the code chooses index 1
(the file count) and opens `requests_20250101_0001.jsonl.gz`, while
`1 + max(existing indices)` is 6. -/
theorem findNextIndex_not_one_plus_max :
    findNextIndex "20250101" ["requests_20250101_0005.jsonl.gz"] = 1 ∧
    specNextIndex "20250101" ["requests_20250101_0005.jsonl.gz"] = 6 ∧
    (1 : Nat) ≠ 6 ∧
    rotateFileName "20250101" ["requests_20250101_0005.jsonl.gz"] =
      "requests_20250101_0001.jsonl.gz" := by
  decide

/-- C2 amended: rotation opens `<prefix>_<YYYYMMDD>_<NNNN><suffix>` with
the index zero-padded to at least four digits (exactly four whenever the
index needs at most four), and the index chosen for a newly opened file is
the count of files already matching the current day's pattern (which each
file the rotation itself names does match). -/
theorem rotateFileName_pattern (today : String) (dirFiles : List String) :
    rotateFileName today dirFiles =
      logFilePre ++ "_" ++ today ++ "_" ++
        pad4 (findNextIndex today dirFiles) ++ logFileSuf ∧
    findNextIndex today dirFiles =
      (dirFiles.filter (fun n => isTodayLogFile today n)).length ∧
    (∀ n : Nat, (pad4 n).length = max 4 (Nat.repr n).length) ∧
    (∀ idx : Nat, isTodayLogFile today (logFileName today idx) = true) := by
  refine ⟨rfl, rfl, fun n => ?_, fun idx => isTodayLogFile_logFileName today idx⟩
  show (List.replicate (4 - (Nat.repr n).data.length) '0' ++
      (Nat.repr n).data).length = max 4 (Nat.repr n).data.length
  rw [List.length_append, List.length_replicate]
  omega

/-- Witness for C2 (amended): on an empty directory the first file for
20250101 is `requests_20250101_0000.jsonl.gz`. -/
theorem rotateFileName_pattern_witness :
    rotateFileName "20250101" [] = "requests_20250101_0000.jsonl.gz" := by
  rw [(rotateFileName_pattern "20250101" []).1]
  decide
